import Mathlib

/-!
# Verification of the agent-workshop repository

Shallow embedding of the repository's tool functions
(`src/Day_2/D2_TC2_Improving_Agent_Reliability_with_Code.py`) and of the
retry, compaction, session-store, memory-store and sequential-pipeline
protocols that the repository configures through the ADK library.
-/

/-! ## Python strings

Python strings are modelled as lists of Unicode code points. -/

/-- A Python string: the list of its Unicode code points. -/
abbrev PyStr := List Nat

/-- Code points of a string literal, for writing `PyStr` constants. -/
def pystr (s : String) : PyStr := s.data.map Char.toNat

/-- One code point of Python `str.lower` (the ASCII fragment, which covers
every key appearing in the repository's lookup tables). -/
def lowerCode (c : Nat) : Nat := if 65 ≤ c ∧ c ≤ 90 then c + 32 else c

/-- Python `str.lower` over a whole string. -/
def pyLower (s : PyStr) : PyStr := s.map lowerCode

/-- Python `dict.get d k` on a literal table: the value at the first matching
key, `none` when the key is absent. -/
def dictGet {κ β : Type} [DecidableEq κ] (d : List (κ × β)) (k : κ) : Option β :=
  match d with
  | [] => none
  | kv :: rest => if k = kv.1 then some kv.2 else dictGet rest k

/-! ## The two custom tool functions of Day 2

`get_fee_for_payment_method` and `get_exchange_rate` from
`src/Day_2/D2_TC2_Improving_Agent_Reliability_with_Code.py`. Each returns a
Python dict with a `status` field and either a numeric payload or an
`error_message`; both are modelled as records with optional fields. -/

/-- Return dict of `get_fee_for_payment_method`:
`{"status": ..., "fee_percentage": ...}` or `{"status": ..., "error_message": ...}`. -/
structure FeeResult where
  status : PyStr
  fee_percentage : Option ℚ
  error_message : Option PyStr
deriving DecidableEq

/-- The mock fee table `fee_database` from the source. -/
def fee_database : List (PyStr × ℚ) :=
  [(pystr "platinum credit card", 0.02),
   (pystr "gold debit card", 0.035),
   (pystr "bank transfer", 0.01)]

/-- `get_fee_for_payment_method(method)`: looks up `method.lower()` in
`fee_database`; success carries the fee, failure an error message echoing the
original `method`. -/
def get_fee_for_payment_method (method : PyStr) : FeeResult :=
  match dictGet fee_database (pyLower method) with
  | some fee => ⟨pystr "success", some fee, none⟩
  | none =>
      ⟨pystr "error", none,
        some (pystr "Payment method '" ++ method ++ pystr "' not found")⟩

/-- Return dict of `get_exchange_rate`:
`{"status": ..., "rate": ...}` or `{"status": ..., "error_message": ...}`. -/
structure RateResult where
  status : PyStr
  rate : Option ℚ
  error_message : Option PyStr
deriving DecidableEq

/-- The mock nested rate table `rate_database` from the source. -/
def rate_database : List (PyStr × List (PyStr × ℚ)) :=
  [(pystr "usd",
    [(pystr "eur", 0.93),
     (pystr "jpy", 157.50),
     (pystr "inr", 83.58)])]

/-- `get_exchange_rate(base_currency, target_currency)`: the nested lookup
`rate_database.get(base, {}).get(target)` on the lower-cased inputs; the error
message echoes the original inputs. -/
def get_exchange_rate (base_currency target_currency : PyStr) : RateResult :=
  let base := pyLower base_currency
  let target := pyLower target_currency
  match dictGet ((dictGet rate_database base).getD []) target with
  | some rate => ⟨pystr "success", some rate, none⟩
  | none =>
      ⟨pystr "error", none,
        some (pystr "Unsupported currency pair: " ++ base_currency
              ++ pystr "/" ++ target_currency)⟩

/-! ## Model Invoker retry policy

The repository configures the library's retry through
`types.HttpRetryOptions(attempts=5, exp_base=7, initial_delay=1,
http_status_codes=[429, 500, 503, 504])` (`retry_config` in
`src/Day_2/D2_TC2_Improving_Agent_Reliability_with_Code.py` and
`src/Day_1/TC1b_4_Sequential-Workflows.py`); the retry loop itself lives in
the library, so it is modelled from the spec. -/

/-- RetryPolicy `{max_attempts, base_delay, exponential_base,
retryable_status_codes}`; pure configuration. -/
structure RetryPolicy where
  max_attempts : Nat
  base_delay : Nat
  exponential_base : Nat
  retryable_status_codes : List Nat
deriving DecidableEq

/-- The `retry_config` constant of the source files: `attempts=5`,
`initial_delay=1` (the base delay), `exp_base=7`,
`http_status_codes=[429, 500, 503, 504]`. -/
def retry_config : RetryPolicy :=
  { max_attempts := 5
    base_delay := 1
    exponential_base := 7
    retryable_status_codes := [429, 500, 503, 504] }

/-- Outcome of one underlying model call: output, or an HTTP status code. -/
inductive CallOutcome (α : Type) where
  | ok (output : α)
  | err (status : Nat)
deriving DecidableEq

/-- Terminal invocation failures of the Model Invoker. -/
inductive InvocationError where
  | retriesExhausted (lastStatus : Nat)
  | nonRetryable (status : Nat)
deriving DecidableEq

/-- Full trace of one `invoke`: the final result, the waits inserted between
consecutive attempts (in order), and the 1-based numbers of the attempts that
were actually made. -/
structure InvokeTrace (α : Type) where
  result : Except InvocationError α
  delays : List Nat
  attempts : List Nat

/-- Modelled from the spec: the Model Invoker retry loop (the repository only
configures it through `retry_config`). Attempt the underlying call; on failure
with a status in `retryable_status_codes` and attempts remaining, wait
`base_delay * exponential_base^(attempt-1)` and retry; otherwise fail
immediately; exhausting `max_attempts` yields `retriesExhausted`. -/
def invokeAux {α : Type} (p : RetryPolicy) (stub : Nat → CallOutcome α) :
    Nat → Nat → InvokeTrace α
  | _, 0 => ⟨.error (.retriesExhausted 0), [], []⟩
  | attempt, remaining + 1 =>
    match stub attempt with
    | .ok v => ⟨.ok v, [], [attempt]⟩
    | .err s =>
      if s ∈ p.retryable_status_codes then
        match remaining with
        | 0 => ⟨.error (.retriesExhausted s), [], [attempt]⟩
        | r + 1 =>
          let d := p.base_delay * p.exponential_base ^ (attempt - 1)
          let rest := invokeAux p stub (attempt + 1) (r + 1)
          ⟨rest.result, d :: rest.delays, attempt :: rest.attempts⟩
      else ⟨.error (.nonRetryable s), [], [attempt]⟩

/-- Modelled from the spec: `invoke(prompt_context, retry_policy)`, starting
at attempt 1 with `max_attempts` attempts available. -/
def invoke {α : Type} (p : RetryPolicy) (stub : Nat → CallOutcome α) :
    InvokeTrace α :=
  invokeAux p stub 1 p.max_attempts

/-- The scenario of the spec's retry test: an underlying call that fails with
status 429 on the first four attempts and succeeds on every later one. -/
def stub429 : Nat → CallOutcome Unit :=
  fun n => if n ≤ 4 then .err 429 else .ok ()

/-! ## Events and sessions (spec data model)

`Event`, `CompactionRecord` (an event whose `actions.compaction` marker is
set) and `Session` from the spec's data model; the repository manipulates
these only through the library. -/

/-- The contiguous range `[start_id, end_id)` of prior events a
CompactionRecord stands in for. -/
structure CompactionInfo where
  start_id : Nat
  end_id : Nat
deriving DecidableEq

/-- Side-effect markers of an event; `compaction` is set exactly on
CompactionRecords. -/
structure EventActions where
  compaction : Option CompactionInfo
deriving DecidableEq

/-- Modelled from the spec: an immutable event of a session's history. -/
structure Event where
  id : Nat
  author : String
  content : String
  actions : EventActions
deriving DecidableEq

/-- Modelled from the spec: a session — identity `(app_name, user_id,
session_id)` plus its ordered event log. -/
structure Session where
  app_name : String
  user_id : String
  session_id : String
  events : List Event
deriving DecidableEq

/-! ## Session Store

`create_session` / `get_session` as called by `run_session` in
`src/Day_3/D3b_Memory_lnjest_and_Reterive_test.py` and
`src/Day_3/D3a_TC3_Memory_with_Context_Management.py`; the store itself lives
in the library, so it is modelled from the spec (§4.4). -/

/-- A session key: `(app_name, user_id, session_id)`. -/
abbrev SessionKey := String × String × String

/-- The Session Store: sessions keyed by `(app_name, user_id, session_id)`. -/
abbrev SessionStore := List (SessionKey × Session)

/-- Session Store failures. -/
inductive SessionError where
  | alreadyExists
  | notFound
deriving DecidableEq

/-- Modelled from the spec: `create(app, user, id)` — fails with
`AlreadyExists` if the key exists, otherwise adds a fresh empty session. -/
def create_session (st : SessionStore) (app user id : String) :
    Except SessionError (SessionStore × Session) :=
  match dictGet st (app, user, id) with
  | some _ => .error .alreadyExists
  | none =>
      let s : Session := ⟨app, user, id, []⟩
      .ok (st ++ [((app, user, id), s)], s)

/-- Modelled from the spec: `get(app, user, id)` — fails with `NotFound` when
no session with that key exists. -/
def get_session (st : SessionStore) (app user id : String) :
    Except SessionError Session :=
  match dictGet st (app, user, id) with
  | some s => .ok s
  | none => .error .notFound

/-! ## Compactor

The repository enables compaction through
`EventsCompactionConfig(compaction_interval=3, overlap_size=1)` in
`src/Day_3/D3a_TC3_Memory_with_Context_Management.py`; the compaction policy
itself lives in the library, so it is modelled from the spec (§4.5). -/

/-- The compaction configuration: trigger every `compaction_interval`
completed turns, keep the last `overlap_size` turns out of the compacted
range. -/
structure EventsCompactionConfig where
  compaction_interval : Nat
  overlap_size : Nat
deriving DecidableEq

/-- The configuration of `research_app_compacting` in the source:
`compaction_interval=3, overlap_size=1`. -/
def events_compaction_config : EventsCompactionConfig :=
  { compaction_interval := 3, overlap_size := 1 }

/-- Modelled from the spec: the per-session state the Compactor maintains —
the event log, the start id of every completed turn, the
`turns_since_compaction` counter, the end (exclusive id) of the range marked
superseded by the latest CompactionRecord (0 when none), and the next fresh
event id. -/
structure CompactorState where
  events : List Event
  turnStarts : List Nat
  turns_since_compaction : Nat
  superseded_end : Nat
  nextId : Nat
deriving DecidableEq

/-- A fresh session's compactor state. -/
def initCompactorState : CompactorState := ⟨[], [], 0, 0, 0⟩

/-- The CompactionRecord summarizing the range `[0, stop)`: an event whose
`actions.compaction` marker is set. -/
def compactionEvent (id stop : Nat) (summary : String) : Event :=
  ⟨id, "compactor", summary, ⟨some ⟨0, stop⟩⟩⟩

/-- Modelled from the spec: the Compactor's replace-range operation — append
one CompactionRecord covering `[0, stop)` and mark that range superseded; on a
range already superseded it is a no-op. -/
def compactRange (st : CompactorState) (stop : Nat) (summary : String) :
    CompactorState :=
  if stop ≤ st.superseded_end then st
  else
    { st with
      events := st.events ++ [compactionEvent st.nextId stop summary]
      superseded_end := stop
      nextId := st.nextId + 1 }

/-- The plain (non-compaction) events a completed turn appends, with
consecutive ids starting at `firstId`. -/
def mkTurnEvents (firstId : Nat) (contents : List String) : List Event :=
  contents.enum.map fun p => ⟨firstId + p.1, "turn", p.2, ⟨none⟩⟩

/-- The overlap cutoff: the start id of the turn `overlap_size` turns before
the end of history — events at or after it are inside the overlap window. -/
def overlapBoundary (cfg : EventsCompactionConfig) (st : CompactorState) :
    Nat :=
  st.turnStarts.getD (st.turnStarts.length - cfg.overlap_size) st.nextId

/-- Modelled from the spec: one completed turn — append the turn's events,
bump `turns_since_compaction`, and when the counter reaches
`compaction_interval` compact everything before the overlap cutoff and reset
the counter. -/
def completeTurn (cfg : EventsCompactionConfig) (st : CompactorState)
    (contents : List String) : CompactorState :=
  let st1 : CompactorState :=
    { st with
      events := st.events ++ mkTurnEvents st.nextId contents
      turnStarts := st.turnStarts ++ [st.nextId]
      turns_since_compaction := st.turns_since_compaction + 1
      nextId := st.nextId + contents.length }
  if cfg.compaction_interval ≤ st1.turns_since_compaction then
    { compactRange st1 (overlapBoundary cfg st1) "summary" with
      turns_since_compaction := 0 }
  else st1

/-- A whole conversation: the given turns completed in order on a fresh
session. -/
def runTurns (cfg : EventsCompactionConfig) (turns : List (List String)) :
    CompactorState :=
  turns.foldl (completeTurn cfg) initCompactorState

/-! ## Memory Store

`add_session_to_memory` / `search_memory` as called by
`src/Day_3/D3b_Memory_lnjest_and_Reterive_test.py` and by the
`auto_save_to_memory` callback of
`src/Day_3/D3b_Automate_Memory_Storage_using_Callbacks.py`; the store itself
lives in the library, so it is modelled from the spec (§4.6). -/

/-- Modelled from the spec: a MemoryFragment produced by ingesting one
session event. -/
structure MemoryFragment where
  app_name : String
  user_id : String
  source_session_id : String
  event_id : Nat
  author : String
  content : String
deriving DecidableEq

/-- The Memory Store's content. -/
abbrev MemoryStore := List MemoryFragment

/-- The fragment extracted from one event of a session. -/
def fragmentOfEvent (s : Session) (e : Event) : MemoryFragment :=
  ⟨s.app_name, s.user_id, s.session_id, e.id, e.author, e.content⟩

/-- Whether a fragment keyed by `(session id, event id)` is already present. -/
def hasFragment (store : MemoryStore) (sid : String) (eid : Nat) : Bool :=
  store.any fun f => f.source_session_id == sid && f.event_id == eid

/-- Modelled from the spec: ingest one event — skip events with no text
content (pure tool-call plumbing), skip events whose `(session id, event id)`
key is already present, otherwise append the fragment. -/
def ingestEvent (s : Session) (store : MemoryStore) (e : Event) :
    MemoryStore :=
  if e.content = "" then store
  else if hasFragment store s.session_id e.id then store
  else store ++ [fragmentOfEvent s e]

/-- Modelled from the spec: `ingest(session)` (`add_session_to_memory`) —
ingest the session's events in order. -/
def ingest (s : Session) (store : MemoryStore) : MemoryStore :=
  s.events.foldl (ingestEvent s) store

/-- Splits a list of code characters into whitespace-separated words;
`acc` holds the characters of the current word, reversed. -/
def splitWordsAux : List Char → List Char → List String
  | [], acc => if acc.isEmpty then [] else [String.mk acc.reverse]
  | c :: cs, acc =>
      if c = ' ' then
        if acc.isEmpty then splitWordsAux cs []
        else String.mk acc.reverse :: splitWordsAux cs []
      else splitWordsAux cs (c :: acc)

/-- The words of a text, for keyword scoring. -/
def textWords (s : String) : List String := splitWordsAux s.data []

/-- Modelled from the spec: keyword relevance — the number of query words
occurring in the content. -/
def score (query content : String) : Nat :=
  ((textWords query).filter fun w => (textWords content).contains w).length

/-- Inserts a fragment into a list ranked by decreasing score. -/
def insertRanked (q : String) (f : MemoryFragment) :
    List MemoryFragment → List MemoryFragment
  | [] => [f]
  | g :: gs =>
      if score q g.content < score q f.content then f :: g :: gs
      else g :: insertRanked q f gs

/-- Ranks fragments by decreasing relevance score. -/
def rankByRelevance (q : String) (l : List MemoryFragment) :
    List MemoryFragment :=
  l.foldr (insertRanked q) []

/-- Modelled from the spec: `search(app, user, query)` (`search_memory`) —
the fragments of the `(app, user)` scope, ranked by decreasing keyword
relevance. -/
def search_memory (store : MemoryStore) (app user query : String) :
    List MemoryFragment :=
  rankByRelevance query
    (store.filter fun f => f.app_name == app && f.user_id == user)

/-- The session of `src/Day_3/D3b_Memory_lnjest_and_Reterive_test.py` whose
user event states the favorite color; the agent reply stands in for the
model-generated haiku. -/
def colorSession : Session :=
  ⟨"MemoryDemoApp", "demo_user", "conversation-01",
    [⟨0, "user",
      "My favorite color is blue-green. Can you write a Haiku about it?",
      ⟨none⟩⟩,
     ⟨1, "MemoryDemoAgent", "Teal waves softly gleam", ⟨none⟩⟩]⟩

/-- The birthday session of the same source file; the agent reply stands in
for the model-generated acknowledgement. -/
def birthdaySession : Session :=
  ⟨"MemoryDemoApp", "demo_user", "birthday-session-01",
    [⟨0, "user", "My birthday is on March 15th.", ⟨none⟩⟩,
     ⟨1, "MemoryDemoAgent", "Noted, I will remember that.", ⟨none⟩⟩]⟩

/-- The memory store after ingesting both demo sessions. -/
def demoStore : MemoryStore := ingest birthdaySession (ingest colorSession [])

/-- The color-related fragment. -/
def colorFragment : MemoryFragment :=
  fragmentOfEvent colorSession
    ⟨0, "user",
      "My favorite color is blue-green. Can you write a Haiku about it?",
      ⟨none⟩⟩

/-- The birthday fragment. -/
def birthdayFragment : MemoryFragment :=
  fragmentOfEvent birthdaySession
    ⟨0, "user", "My birthday is on March 15th.", ⟨none⟩⟩

/-! ## Sequential pipeline (Day 1)

The Outline→Writer→Editor pipeline of
`src/Day_1/TC1b_4_Sequential-Workflows.py`: each agent's instruction template,
its `output_key`, and the `SequentialAgent` composition are from the source;
the template substitution and sequential execution live in the library, so
they are modelled from the spec (§4.2). -/

/-- One piece of an instruction template: literal text, or a `{key}`
placeholder referencing session state. -/
inductive TemplatePart where
  | lit (s : String)
  | var (key : String)
deriving DecidableEq

/-- An instruction template. -/
abbrev Template := List TemplatePart

/-- Session key-value state. -/
abbrev AgentState := List (String × String)

/-- Stores a value under an output key (later writes shadow earlier ones). -/
def setState (st : AgentState) (k v : String) : AgentState := (k, v) :: st

/-- Reads a state key. -/
def getState (st : AgentState) (k : String) : Option String := dictGet st k

/-- Resolves one template part against the state; an unresolved placeholder
is a fatal configuration error (`none`). -/
def resolvePart (st : AgentState) (acc : String) : TemplatePart → Option String
  | .lit s => some (acc ++ s)
  | .var k => (getState st k).map fun v => acc ++ v

/-- Resolves the remaining template parts, `acc` holding the prompt so far;
`none` as soon as a placeholder is unresolved. -/
def resolveTemplateAux (st : AgentState) (acc : String) :
    Template → Option String
  | [] => some acc
  | part :: rest =>
      match resolvePart st acc part with
      | none => none
      | some next => resolveTemplateAux st next rest

/-- Modelled from the spec: context-variable substitution of an instruction
template. -/
def resolveTemplate (st : AgentState) (t : Template) : Option String :=
  resolveTemplateAux st "" t

/-- A Leaf agent: name, instruction template, output key. -/
structure LeafAgent where
  name : String
  instruction : Template
  output_key : String
deriving DecidableEq

/-- Modelled from the spec: one Leaf agent run — resolve the template, invoke
the model on the resolved prompt, store the output under `output_key`;
returns the new state together with the resolved prompt. -/
def runLeaf (model : String → String) (st : AgentState) (a : LeafAgent) :
    Option (AgentState × String) :=
  match resolveTemplate st a.instruction with
  | none => none
  | some prompt => some (setState st a.output_key (model prompt), prompt)

/-- Modelled from the spec: a Sequential composite — run the sub-agents one
at a time in declared order, each seeing the state written by its
predecessors; returns the final state and every resolved prompt in order. -/
def runSequential (model : String → String) (st : AgentState) :
    List LeafAgent → Option (AgentState × List String)
  | [] => some (st, [])
  | a :: rest =>
      match runLeaf model st a with
      | none => none
      | some (st', prompt) =>
          match runSequential model st' rest with
          | none => none
          | some (stFin, prompts) => some (stFin, prompt :: prompts)

/-- `outline_agent` from the source: all-literal instruction, output key
`blog_outline`. -/
def outline_agent : LeafAgent :=
  ⟨"OutlineAgent",
   [.lit "Create a blog outline for the given topic with:\n    1. A catchy headline\n    2. An introduction hook\n    3. 3-5 main sections with 2-3 bullet points for each\n    4. A concluding thought"],
   "blog_outline"⟩

/-- The instruction text of `outline_agent`. -/
def outlineInstructionText : String :=
  "Create a blog outline for the given topic with:\n    1. A catchy headline\n    2. An introduction hook\n    3. 3-5 main sections with 2-3 bullet points for each\n    4. A concluding thought"

/-- `writer_agent` from the source: its instruction references the
`blog_outline` placeholder; output key `blog_draft`. -/
def writer_agent : LeafAgent :=
  ⟨"WriterAgent",
   [.lit "Following this outline strictly: ", .var "blog_outline",
    .lit "\n    Write a brief, 200 to 300-word blog post with an engaging and informative tone."],
   "blog_draft"⟩

/-- `editor_agent` from the source: its instruction references the
`blog_draft` placeholder; output key `final_blog`. -/
def editor_agent : LeafAgent :=
  ⟨"EditorAgent",
   [.lit "Edit this draft: ", .var "blog_draft",
    .lit "\n    Your task is to polish the text by fixing any grammatical errors, improving the flow and sentence structure, and enhancing overall clarity."],
   "final_blog"⟩

/-- Turn 1 of the compaction demo in
`src/Day_3/D3a_TC3_Memory_with_Context_Management.py`: the user query and a
stand-in model reply. -/
def demoTurn1 : List String :=
  ["What is the latest news about AI in healthcare?",
   "model reply about AI in healthcare"]

/-- Turn 2 of the compaction demo. -/
def demoTurn2 : List String :=
  ["Are there any new developments in drug discovery?",
   "model reply about drug discovery"]

/-- Turn 3 of the compaction demo. -/
def demoTurn3 : List String :=
  ["Tell me more about the second development you found.",
   "model reply with more detail"]

/-- An existing demo session, for instantiating the Session Store contract. -/
def demoSession : Session := ⟨"MemoryDemoApp", "demo_user", "conversation-01", []⟩

/-- A store already holding `demoSession` under its key. -/
def demoSessionStore : SessionStore :=
  [(("MemoryDemoApp", "demo_user", "conversation-01"), demoSession)]

/-! Basic lemmas about lowering. -/

/-- ASCII lowering is idempotent at the code-point level. -/
theorem lowerCode_idem (c : Nat) : lowerCode (lowerCode c) = lowerCode c := by
  unfold lowerCode
  split
  · rename_i h
    rw [if_neg]
    omega
  · rfl

/-- Python `str.lower` is idempotent. -/
theorem pyLower_idem (s : PyStr) : pyLower (pyLower s) = pyLower s := by
  simp [pyLower, List.map_map, Function.comp_def, lowerCode_idem]

/-- The two status constants are distinct code-point lists. -/
theorem error_ne_success : ¬ pystr "error" = pystr "success" := by decide

/-- The keys of the inner rate table are pairwise distinct. -/
theorem rate_keys_distinct :
    ¬ pystr "jpy" = pystr "eur" ∧ ¬ pystr "inr" = pystr "eur" ∧
      ¬ pystr "inr" = pystr "jpy" := by decide

/-- C5: every call to either tool returns a mapping whose `status` is
`"success"` or `"error"`; a success carries the looked-up number
(`fee_percentage`, `rate`) and an error carries an `error_message`. Failed
lookups are reported through this field; the embeddings are total Lean
functions, so no exception can be raised. -/
theorem tool_status_contract (m b t : PyStr) :
    (((get_fee_for_payment_method m).status = pystr "success" ∧
        (get_fee_for_payment_method m).fee_percentage.isSome) ∨
      ((get_fee_for_payment_method m).status = pystr "error" ∧
        (get_fee_for_payment_method m).error_message.isSome)) ∧
    (((get_exchange_rate b t).status = pystr "success" ∧
        (get_exchange_rate b t).rate.isSome) ∨
      ((get_exchange_rate b t).status = pystr "error" ∧
        (get_exchange_rate b t).error_message.isSome)) := by
  unfold get_fee_for_payment_method get_exchange_rate
  constructor
  · cases hf : dictGet fee_database (pyLower m) <;> simp [hf]
  · cases hr : dictGet ((dictGet rate_database (pyLower b)).getD []) (pyLower t) <;>
      simp [hr]

/-- C9: `get_exchange_rate` is total over all string inputs — the nested
lookup `rate_database.get(base, {}).get(target)` never throws — it reports a
failed lookup through the `error` status, and it succeeds exactly on the pairs
usd→eur, usd→jpy, usd→inr up to letter case. -/
theorem get_exchange_rate_total (b t : PyStr) :
    ((get_exchange_rate b t).status = pystr "success" ↔
      (pyLower b = pystr "usd" ∧
        (pyLower t = pystr "eur" ∨ pyLower t = pystr "jpy" ∨
          pyLower t = pystr "inr"))) ∧
    ((get_exchange_rate b t).status = pystr "success" ∨
      ((get_exchange_rate b t).status = pystr "error" ∧
        (get_exchange_rate b t).error_message.isSome)) := by
  by_cases hb : pyLower b = pystr "usd"
  · by_cases he : pyLower t = pystr "eur"
    · simp [get_exchange_rate, rate_database, dictGet, hb, he]
    · by_cases hj : pyLower t = pystr "jpy"
      · simp [get_exchange_rate, rate_database, dictGet, hb, he, hj,
          rate_keys_distinct.1]
      · by_cases hi : pyLower t = pystr "inr"
        · simp [get_exchange_rate, rate_database, dictGet, hb, he, hj, hi,
            rate_keys_distinct.2.1, rate_keys_distinct.2.2]
        · simp [get_exchange_rate, rate_database, dictGet, hb, he, hj, hi,
            error_ne_success]
  · simp [get_exchange_rate, rate_database, dictGet, hb, error_ne_success]

/-- Witness for C9 at a concrete input. -/
theorem get_exchange_rate_total_witness :
    ((get_exchange_rate (pystr "USD") (pystr "EUR")).status = pystr "success" ↔
      (pyLower (pystr "USD") = pystr "usd" ∧
        (pyLower (pystr "EUR") = pystr "eur" ∨
          pyLower (pystr "EUR") = pystr "jpy" ∨
          pyLower (pystr "EUR") = pystr "inr"))) ∧
    ((get_exchange_rate (pystr "USD") (pystr "EUR")).status = pystr "success" ∨
      ((get_exchange_rate (pystr "USD") (pystr "EUR")).status = pystr "error" ∧
        (get_exchange_rate (pystr "USD") (pystr "EUR")).error_message.isSome)) :=
  get_exchange_rate_total (pystr "USD") (pystr "EUR")

/-- C10: both tools are case-insensitive in their string arguments: lowering
the inputs changes neither the `status` nor the numeric payload (only the
`error_message`, which echoes the caller's original casing, can differ). -/
theorem tools_case_insensitive (m b t : PyStr) :
    (get_fee_for_payment_method (pyLower m)).status
        = (get_fee_for_payment_method m).status ∧
    (get_fee_for_payment_method (pyLower m)).fee_percentage
        = (get_fee_for_payment_method m).fee_percentage ∧
    (get_exchange_rate (pyLower b) (pyLower t)).status
        = (get_exchange_rate b t).status ∧
    (get_exchange_rate (pyLower b) (pyLower t)).rate
        = (get_exchange_rate b t).rate := by
  unfold get_fee_for_payment_method get_exchange_rate
  rw [pyLower_idem m, pyLower_idem b, pyLower_idem t]
  cases hf : dictGet fee_database (pyLower m) <;>
    cases hr : dictGet ((dictGet rate_database (pyLower b)).getD []) (pyLower t) <;>
      simp [hf, hr]

/-! ## C1: retry policy -/

/-- C1: with `retry_config` (max_attempts=5, exp_base=7, initial_delay=1,
429 retryable) and an underlying call failing with 429 exactly four times
then succeeding, `invoke` succeeds on the 5th attempt, the waits between
consecutive attempts are exactly 1, 7, 49, 343 in that order
(`base_delay * exponential_base^(attempt-1)`), and no 6th attempt is made
(the attempt trace is exactly `[1, 2, 3, 4, 5]`). -/
theorem retry_policy_429_trace :
    invoke retry_config stub429 =
      ⟨Except.ok (), [1, 7, 49, 343], [1, 2, 3, 4, 5]⟩ := by
  rfl

/-! ## C8: Session Store contract -/

/-- C8: for every key, `create_session` fails with `AlreadyExists` exactly
when a session with that key exists, `get_session` fails with `NotFound`
exactly when none exists, and a caller whose create failed can recover by
falling back to get, which returns the existing session. -/
theorem session_store_contract (st : SessionStore) (app user id : String) :
    (create_session st app user id = .error .alreadyExists ↔
      ∃ s, dictGet st (app, user, id) = some s) ∧
    (get_session st app user id = .error .notFound ↔
      dictGet st (app, user, id) = none) ∧
    (∀ e, create_session st app user id = .error e →
      ∃ s, dictGet st (app, user, id) = some s ∧
        get_session st app user id = .ok s) := by
  cases h : dictGet st (app, user, id) <;>
    simp [create_session, get_session, h]

/-- Witness for C8: on a store already holding the demo session, create
fails and the fallback get returns the stored session. -/
theorem session_store_contract_witness :
    ∃ s, dictGet demoSessionStore
        ("MemoryDemoApp", "demo_user", "conversation-01") = some s ∧
      get_session demoSessionStore
        "MemoryDemoApp" "demo_user" "conversation-01" = Except.ok s :=
  (session_store_contract demoSessionStore
      "MemoryDemoApp" "demo_user" "conversation-01").2.2
    SessionError.alreadyExists rfl

/-! ## C3: idempotent memory ingestion -/

/-- Presence of a fragment key in a store extended on the right. -/
theorem hasFragment_append (store l : MemoryStore) (sid : String) (eid : Nat) :
    hasFragment (store ++ l) sid eid =
      (hasFragment store sid eid || hasFragment l sid eid) := by
  simp [hasFragment, List.any_append]

/-- Ingesting an event never removes a fragment key. -/
theorem hasFragment_ingestEvent (s : Session) (store : MemoryStore)
    (e : Event) (sid : String) (eid : Nat)
    (h : hasFragment store sid eid = true) :
    hasFragment (ingestEvent s store e) sid eid = true := by
  unfold ingestEvent
  split
  · exact h
  · split
    · exact h
    · simp [hasFragment_append, h]

/-- After ingesting an event with text content, its key is present. -/
theorem hasFragment_ingestEvent_self (s : Session) (store : MemoryStore)
    (e : Event) (hc : ¬ e.content = "") :
    hasFragment (ingestEvent s store e) s.session_id e.id = true := by
  unfold ingestEvent
  rw [if_neg hc]
  by_cases h : hasFragment store s.session_id e.id
  · simp [h]
  · simp only [h]
    simp [hasFragment_append, hasFragment, fragmentOfEvent]

/-- Folding ingestion over any event list preserves present keys. -/
theorem foldl_ingest_preserves (s : Session) (l : List Event)
    (store : MemoryStore) (sid : String) (eid : Nat)
    (h : hasFragment store sid eid = true) :
    hasFragment (l.foldl (ingestEvent s) store) sid eid = true := by
  induction l generalizing store with
  | nil => exact h
  | cons e es ih => exact ih _ (hasFragment_ingestEvent s store e sid eid h)

/-- After folding ingestion over a list, every listed event with text content
has its key present. -/
theorem foldl_ingest_mem (s : Session) (l : List Event) (store : MemoryStore)
    (e : Event) (he : e ∈ l) (hc : ¬ e.content = "") :
    hasFragment (l.foldl (ingestEvent s) store) s.session_id e.id = true := by
  induction l generalizing store with
  | nil => cases he
  | cons x xs ih =>
    rcases List.mem_cons.mp he with rfl | hmem
    · exact foldl_ingest_preserves s xs (ingestEvent s store e) _ _
        (hasFragment_ingestEvent_self s store e hc)
    · exact ih _ hmem

/-- Folding ingestion over events whose keys are all present (or which carry
no text) leaves the store unchanged. -/
theorem foldl_ingest_noop (s : Session) (l : List Event) (store : MemoryStore)
    (h : ∀ e ∈ l, e.content = "" ∨
      hasFragment store s.session_id e.id = true) :
    l.foldl (ingestEvent s) store = store := by
  induction l with
  | nil => rfl
  | cons x xs ih =>
    have hstep : ingestEvent s store x = store := by
      unfold ingestEvent
      rcases h x (List.mem_cons_self x xs) with hx | hx
      · rw [if_pos hx]
      · by_cases hcx : x.content = ""
        · rw [if_pos hcx]
        · rw [if_neg hcx, if_pos hx]
    rw [List.foldl_cons, hstep]
    exact ih fun e he => h e (List.mem_cons_of_mem x he)

/-- C3: memory ingestion is idempotent — for any session, running `ingest`
twice leaves the Memory Store exactly as running it once, because fragments
are keyed by session id and event id and existing keys are never
re-inserted. -/
theorem ingest_idempotent (s : Session) (store : MemoryStore) :
    ingest s (ingest s store) = ingest s store := by
  unfold ingest
  apply foldl_ingest_noop
  intro e he
  by_cases hc : e.content = ""
  · exact Or.inl hc
  · exact Or.inr (foldl_ingest_mem s s.events store e he hc)

/-! ## C4: compaction invariants -/

/-- `List.getD` is monotone in its fallback value. -/
theorem getD_default_mono (l : List Nat) (n d d' : Nat) (h : d ≤ d') :
    l.getD n d ≤ l.getD n d' := by
  rcases hg : l[n]? with _ | x
  · simp [List.getD_eq_getElem?_getD, hg, h]
  · simp [List.getD_eq_getElem?_getD, hg]

/-- C4: a compaction step never supersedes an event more recent than
`overlap_size` turns before the compaction point (the new `superseded_end`
stays at or below the overlap cutoff unless it was already higher), and
re-running the replace-range operation on a range that is already superseded
leaves the state unchanged. -/
theorem compaction_overlap_invariant (cfg : EventsCompactionConfig)
    (st : CompactorState) (c : List String) (stop : Nat) (s1 s2 : String) :
    (completeTurn cfg st c).superseded_end ≤
        max st.superseded_end
          (overlapBoundary cfg (completeTurn cfg st c)) ∧
    compactRange (compactRange st stop s1) stop s2 =
        compactRange st stop s1 := by
  constructor
  · simp only [completeTurn]
    split
    · simp only [compactRange]
      split
      · exact le_max_left _ _
      · simp only [overlapBoundary]
        refine le_trans ?_ (le_max_right _ _)
        exact getD_default_mono _ _ _ _ (Nat.le_succ _)
    · exact le_max_left _ _
  · by_cases h : stop ≤ st.superseded_end
    · simp [compactRange, h]
    · simp [compactRange, h]

/-! ## C2: compaction after three turns -/

/-- C2: with `compaction_interval=3, overlap_size=1`, after exactly 3
completed turns the event log contains a CompactionRecord (an event whose
`actions.compaction` marker is set) covering `[0, s3)` where `s3` is the last
turn's start, and after only 2 completed turns no event carries the
compaction marker. -/
theorem compaction_after_three_turns (t1 t2 t3 : List String)
    (h : t1 ≠ []) :
    (∃ e ∈ (runTurns events_compaction_config [t1, t2, t3]).events,
        e.actions.compaction = some ⟨0, t1.length + t2.length⟩) ∧
    (runTurns events_compaction_config [t1, t2, t3]).turnStarts.getD 2 0
        = t1.length + t2.length ∧
    ∀ e ∈ (runTurns events_compaction_config [t1, t2]).events,
      e.actions.compaction = none := by
  have h12 : ¬ (t1.length + t2.length ≤ 0) := by
    have := List.length_pos.mpr h
    omega
  have hrun3 : runTurns events_compaction_config [t1, t2, t3] =
      ⟨mkTurnEvents 0 t1 ++
        (mkTurnEvents t1.length t2 ++
          (mkTurnEvents (t1.length + t2.length) t3 ++
            [compactionEvent (t1.length + t2.length + t3.length)
              (t1.length + t2.length) "summary"])),
       [0, t1.length, t1.length + t2.length],
       0,
       t1.length + t2.length,
       t1.length + t2.length + t3.length + 1⟩ := by
    simp [runTurns, completeTurn, initCompactorState, overlapBoundary,
      compactRange, events_compaction_config, h12]
  have hrun2 : runTurns events_compaction_config [t1, t2] =
      ⟨mkTurnEvents 0 t1 ++ mkTurnEvents t1.length t2,
       [0, t1.length], 2, 0, t1.length + t2.length⟩ := by
    simp [runTurns, completeTurn, initCompactorState, events_compaction_config]
  refine ⟨?_, ?_, ?_⟩
  · rw [hrun3]
    refine ⟨compactionEvent (t1.length + t2.length + t3.length)
      (t1.length + t2.length) "summary", ?_, rfl⟩
    simp
  · rw [hrun3]
    rfl
  · rw [hrun2]
    intro e he
    rcases List.mem_append.mp he with hm | hm <;>
    · simp only [mkTurnEvents, List.mem_map, Prod.exists] at hm
      obtain ⟨a, b, _, hp⟩ := hm
      rw [← hp]

/-- Witness for C2 at the concrete turns of the compaction demo. -/
theorem compaction_after_three_turns_witness :
    demoTurn1 ≠ [] ∧
    ((∃ e ∈ (runTurns events_compaction_config
          [demoTurn1, demoTurn2, demoTurn3]).events,
        e.actions.compaction =
          some ⟨0, demoTurn1.length + demoTurn2.length⟩) ∧
      (runTurns events_compaction_config
          [demoTurn1, demoTurn2, demoTurn3]).turnStarts.getD 2 0
        = demoTurn1.length + demoTurn2.length ∧
      ∀ e ∈ (runTurns events_compaction_config [demoTurn1, demoTurn2]).events,
        e.actions.compaction = none) :=
  ⟨by decide,
   compaction_after_three_turns demoTurn1 demoTurn2 demoTurn3 (by decide)⟩

/-! ## C7: memory search ranking -/

/-- Membership in a ranked insertion. -/
theorem mem_insertRanked (q : String) (f x : MemoryFragment)
    (l : List MemoryFragment) :
    x ∈ insertRanked q f l ↔ x = f ∨ x ∈ l := by
  induction l with
  | nil => simp [insertRanked]
  | cons g gs ih =>
    by_cases hc : score q g.content < score q f.content
    · simp [insertRanked, hc]
    · simp [insertRanked, hc, ih]
      tauto

/-- Ranked insertion preserves the non-increasing-score ordering. -/
theorem pairwise_insertRanked (q : String) (f : MemoryFragment)
    (l : List MemoryFragment)
    (h : l.Pairwise fun a b => score q b.content ≤ score q a.content) :
    (insertRanked q f l).Pairwise
      fun a b => score q b.content ≤ score q a.content := by
  induction l with
  | nil => simp [insertRanked]
  | cons g gs ih =>
    rcases List.pairwise_cons.mp h with ⟨hg, hgs⟩
    by_cases hc : score q g.content < score q f.content
    · simp only [insertRanked, if_pos hc]
      refine List.pairwise_cons.mpr ⟨?_, h⟩
      intro x hx
      rcases List.mem_cons.mp hx with rfl | hx
      · exact Nat.le_of_lt hc
      · exact le_trans (hg x hx) (Nat.le_of_lt hc)
    · simp only [insertRanked, if_neg hc]
      refine List.pairwise_cons.mpr ⟨?_, ih hgs⟩
      intro x hx
      rcases (mem_insertRanked q f x gs).mp hx with rfl | hx
      · exact Nat.le_of_not_lt hc
      · exact hg x hx

/-- The ranking is sorted by non-increasing relevance score. -/
theorem pairwise_rankByRelevance (q : String) (l : List MemoryFragment) :
    (rankByRelevance q l).Pairwise
      fun a b => score q b.content ≤ score q a.content := by
  unfold rankByRelevance
  induction l with
  | nil => simp
  | cons x xs ih => exact pairwise_insertRanked q x _ ih

/-- C7: after ingesting the color session and the birthday session for the
same (app, user) scope, searching "favorite color" returns both fragments
with the color fragment ranked strictly above the birthday fragment; and for
every fixed store and query the returned ordering is sorted by non-increasing
relevance score (the ranking is a pure function of store and query, hence
deterministic). -/
theorem memory_search_ranking :
    (colorFragment ∈
        search_memory demoStore "MemoryDemoApp" "demo_user" "favorite color" ∧
      birthdayFragment ∈
        search_memory demoStore "MemoryDemoApp" "demo_user" "favorite color" ∧
      (search_memory demoStore "MemoryDemoApp" "demo_user"
          "favorite color").indexOf colorFragment <
        (search_memory demoStore "MemoryDemoApp" "demo_user"
          "favorite color").indexOf birthdayFragment) ∧
    ∀ (store : MemoryStore) (app user q : String),
      (search_memory store app user q).Pairwise
        fun a b => score q b.content ≤ score q a.content := by
  constructor
  · decide
  · intro store app user q
    exact pairwise_rankByRelevance q _

/-! ## C6: sequential pipeline state flow -/

/-- C6: in a Sequential composite, the state written by sub-agent `a` under
its `output_key` is visible to the next sub-agent `b` through template
substitution — `b`'s resolved prompt is its template with the placeholder
replaced by exactly `a`'s stored output; and in the concrete
Outline→Writer→Editor pipeline, the Outline output is stored under
`blog_outline` and the Writer's resolved prompt embeds it verbatim, for any
model stub `f`. -/
theorem sequential_state_flow (f g : String → String) (a b : LeafAgent)
    (st : AgentState) (pa p q : String)
    (ha : resolveTemplate st a.instruction = some pa)
    (hb : b.instruction =
      [TemplatePart.lit p, TemplatePart.var a.output_key,
        TemplatePart.lit q]) :
    runSequential g st [a, b] =
        some (setState (setState st a.output_key (g pa)) b.output_key
                (g (p ++ g pa ++ q)),
              [pa, p ++ g pa ++ q]) ∧
    getState (setState st a.output_key (g pa)) a.output_key = some (g pa) ∧
    (∃ res,
      runSequential f [] [outline_agent, writer_agent, editor_agent]
          = some res ∧
      getState res.1 "blog_outline" = some (f outlineInstructionText) ∧
      res.2.getD 1 "" =
        "Following this outline strictly: " ++ f outlineInstructionText ++
          "\n    Write a brief, 200 to 300-word blog post with an engaging and informative tone.") := by
  have h1 : runLeaf g st a = some (setState st a.output_key (g pa), pa) := by
    rw [runLeaf, ha]
  have hres : resolveTemplate (setState st a.output_key (g pa)) b.instruction
      = some (p ++ g pa ++ q) := by
    rw [hb]
    show resolveTemplateAux _ "" _ = _
    simp only [resolveTemplateAux, resolvePart, getState, setState, dictGet,
      if_pos rfl, Option.map_some]
    rfl
  have h2 : runLeaf g (setState st a.output_key (g pa)) b =
      some (setState (setState st a.output_key (g pa)) b.output_key
              (g (p ++ g pa ++ q)),
            p ++ g pa ++ q) := by
    rw [runLeaf, hres]
  refine ⟨?_, ?_, ?_⟩
  · simp only [runSequential, h1, h2]
  · simp [getState, setState, dictGet]
  · refine ⟨(([("final_blog",
        f ("Edit this draft: " ++
            f ("Following this outline strictly: " ++
                f outlineInstructionText ++
                "\n    Write a brief, 200 to 300-word blog post with an engaging and informative tone.") ++
            "\n    Your task is to polish the text by fixing any grammatical errors, improving the flow and sentence structure, and enhancing overall clarity.")),
       ("blog_draft",
        f ("Following this outline strictly: " ++ f outlineInstructionText ++
            "\n    Write a brief, 200 to 300-word blog post with an engaging and informative tone.")),
       ("blog_outline", f outlineInstructionText)],
      [outlineInstructionText,
       "Following this outline strictly: " ++ f outlineInstructionText ++
         "\n    Write a brief, 200 to 300-word blog post with an engaging and informative tone.",
       "Edit this draft: " ++
         f ("Following this outline strictly: " ++ f outlineInstructionText ++
             "\n    Write a brief, 200 to 300-word blog post with an engaging and informative tone.") ++
         "\n    Your task is to polish the text by fixing any grammatical errors, improving the flow and sentence structure, and enhancing overall clarity."]) :
      AgentState × List String), ?_, ?_, ?_⟩
    · rfl
    · rfl
    · rfl

/-- Witness for C6: the echo model stub on the concrete Outline→Writer pair —
the Writer's resolved prompt embeds the Outline output verbatim. -/
theorem sequential_state_flow_witness :
    runSequential (fun s => s) [] [outline_agent, writer_agent] =
        some ([("blog_draft",
                "Following this outline strictly: " ++ outlineInstructionText ++
                  "\n    Write a brief, 200 to 300-word blog post with an engaging and informative tone."),
               ("blog_outline", outlineInstructionText)],
              [outlineInstructionText,
               "Following this outline strictly: " ++ outlineInstructionText ++
                 "\n    Write a brief, 200 to 300-word blog post with an engaging and informative tone."]) ∧
    getState [("blog_outline", outlineInstructionText)] "blog_outline"
        = some outlineInstructionText ∧
    (∃ res,
      runSequential (fun s => s)
          [] [outline_agent, writer_agent, editor_agent] = some res ∧
      getState res.1 "blog_outline" = some outlineInstructionText ∧
      res.2.getD 1 "" =
        "Following this outline strictly: " ++ outlineInstructionText ++
          "\n    Write a brief, 200 to 300-word blog post with an engaging and informative tone.") :=
  sequential_state_flow (fun s => s) (fun s => s) outline_agent writer_agent
    [] outlineInstructionText "Following this outline strictly: "
    "\n    Write a brief, 200 to 300-word blog post with an engaging and informative tone."
    rfl rfl
